import Mathlib

/-!
Verification of the QR-DQN training core of `dqn_zoo` (`QR DQN/qr_dqn_FrozenLake.py`)
and of the distance-progress reward of its environment collaborator
(`QR DQN/custom_env/custom_env6.py`).

Real-valued tensors are embedded as lists of rationals; batched tensors as
nested lists (batch outermost).  Randomness (`random.sample`, `random.random`,
`random.choice`) is embedded by passing the random draw in as an explicit
oracle argument.  Fallible float arithmetic (division that can produce
NaN/infinity) is embedded as `Option`.
-/

/-- `np.eye(dim)[i]`: the one-hot encoding applied by `ReplayBuffer.store`. -/
def oneHot (dim i : ℕ) : List ℚ :=
  (List.range dim).map (fun j => if j = i then 1 else 0)

/-- One stored transition `[observation, action, reward, next_observation, done]`
(observations already one-hot encoded, as in `ReplayBuffer.store`). -/
structure Transition where
  obs : List ℚ
  act : ℤ
  rew : ℚ
  nextObs : List ℚ
  done : Bool
deriving DecidableEq

instance : Inhabited Transition := ⟨⟨[], 0, 0, [], false⟩⟩

/-- The replay buffer: `capacity`, `memory = deque(maxlen=capacity)` (kept
oldest-first), `observation_dim`. -/
structure ReplayBuffer where
  capacity : ℕ
  memory : List Transition
  observation_dim : ℕ
deriving DecidableEq

/-- `ReplayBuffer.__init__`: empty deque. -/
def ReplayBuffer.init (capacity observation_dim : ℕ) : ReplayBuffer :=
  ⟨capacity, [], observation_dim⟩

/-- `ReplayBuffer.store`: one-hot encode both observations, append on the
right; `deque(maxlen=capacity)` discards from the left whatever exceeds
the capacity. -/
def ReplayBuffer.store (b : ReplayBuffer) (observation : ℕ) (action : ℤ)
    (reward : ℚ) (next_observation : ℕ) (doneFlag : Bool) : ReplayBuffer :=
  let t : Transition :=
    ⟨oneHot b.observation_dim observation, action, reward,
     oneHot b.observation_dim next_observation, doneFlag⟩
  let m := b.memory ++ [t]
  { b with memory := m.drop (m.length - b.capacity) }

/-- The transition that `store` builds from raw inputs
`(observation, action, reward, next_observation, done)`. -/
def mkTransition (dim : ℕ) (x : ℕ × ℤ × ℚ × ℕ × Bool) : Transition :=
  ⟨oneHot dim x.1, x.2.1, x.2.2.1, oneHot dim x.2.2.2.1, x.2.2.2.2⟩

/-- Folding `store` over a list of raw transitions (the episode loop's
repeated `buffer.store(...)`). -/
def storeAll (b : ReplayBuffer) (ts : List (ℕ × ℤ × ℚ × ℕ × Bool)) : ReplayBuffer :=
  ts.foldl (fun acc x => acc.store x.1 x.2.1 x.2.2.1 x.2.2.2.1 x.2.2.2.2) b

/-- `ReplayBuffer.sample` (lines 22-25): `batch = random.sample(self.memory,
size)` draws `size` distinct positions; the RNG's chosen positions are
passed in as the oracle list `idxs` (that `idxs` holds `size` distinct
in-range positions is `random.sample`'s own guarantee and appears as
hypotheses in the theorems).  Two failure modes: `random.sample` raises
`ValueError` when `size` exceeds the population, and the five-way unpacking
`observation, action, reward, next_observation, done = zip(*batch)` raises
`ValueError` when the drawn batch is empty (`size = 0`).  The second
component is the state of the buffer when the call finishes, whether it
returns or raises: the method body never writes `self.memory`. -/
def ReplayBuffer.sample (b : ReplayBuffer) (size : ℕ) (idxs : List ℕ) :
    Except String (List Transition) × ReplayBuffer :=
  if size ≤ b.memory.length then
    if (idxs.map (fun i => b.memory.getD i default)).isEmpty then
      (Except.error "not enough values to unpack (expected 5, got 0)", b)
    else
      (Except.ok (idxs.map (fun i => b.memory.getD i default)), b)
  else
    (Except.error "Sample larger than population or is negative", b)

/-- `zip(*batch)`: the five parallel sequences returned by `sample`. -/
def unzipBatch (batch : List Transition) :
    List (List ℚ) × List ℤ × List ℚ × List (List ℚ) × List Bool :=
  (batch.map Transition.obs, batch.map Transition.act, batch.map Transition.rew,
   batch.map Transition.nextObs, batch.map Transition.done)

/-- `tensor.mean()` along the quantile axis for one row. -/
def listMean (l : List ℚ) : ℚ := l.sum / l.length

/-- `argmax` / `max(dim)[1]` over one row: index of the first maximal entry. -/
def argmaxFirst : List ℚ → ℕ
  | [] => 0
  | x :: xs => if xs.getD (argmaxFirst xs) x ≤ x then 0 else argmaxFirst xs + 1

/-- Maximum entry of a row (0 for the empty row). -/
def maxQ : List ℚ → ℚ
  | [] => 0
  | [x] => x
  | x :: y :: ys => max x (maxQ (y :: ys))

/-- Insert index `i` into an index list kept ascending by the values of
`row` (strict comparison, so an index inserted later lands after equal
values). -/
def insertIdx (row : List ℚ) (i : ℕ) : List ℕ → List ℕ
  | [] => [i]
  | j :: js => if row.getD i 0 < row.getD j 0 then i :: j :: js
               else j :: insertIdx row i js

/-- `torch.argsort(row)`: the indices of `row` in ascending order of value
(stable: ties keep the lower index first). -/
def argsortAsc (row : List ℚ) : List ℕ :=
  (List.range row.length).foldl (fun acc i => insertIdx row i acc) []

/-- `tau_hat = torch.linspace(0.0, 1.0 - 1/quant_num, quant_num) + 0.5/quant_num`:
entry `i` is `i/quant_num + 0.5/quant_num = (i + 0.5)/quant_num`. -/
def tau_hat (quant_num i : ℕ) : ℚ := ((i : ℚ) + 1 / 2) / (quant_num : ℚ)

/-- Lines 80-83 of `get_target_distribution` for one batch row:
`quant_idx = torch.argsort(next_dist, dim=1)` followed by
`tau = tau_hat.gather(1, quant_idx)`, i.e. `tau[j] = tau_hat[quant_idx[j]]`. -/
def computeTau (quant_num : ℕ) (next_dist : List ℚ) : List ℚ :=
  (argsortAsc next_dist).map (fun i => tau_hat quant_num i)

/-- `tensor.clamp(0, 1)`. -/
def clamp01 (x : ℚ) : ℚ := min (max x 0) 1

/-- Lines 71-73 for one batch row: pick the greedy action by the mean of its
quantiles (`next_dist.mean(2).max(1)[1]`) and gather that action's quantile
row. -/
def selectRow (rows : List (List ℚ)) : List ℚ :=
  rows.getD (argmaxFirst (rows.map listMean)) []

/-- `get_target_distribution` (lines 66-85): the target model's output on the
batch of next observations is passed in as `nextDistAll` (batch x action x
quantile).  Returns `(target_dist, tau)`, both batch x quantile. -/
def getTargetDistribution (gamma : ℚ) (quant_num : ℕ)
    (nextDistAll : List (List (List ℚ))) (rewards dones : List ℚ) :
    List (List ℚ) × List (List ℚ) :=
  (((nextDistAll.map selectRow).zip (rewards.zip dones)).map
     (fun p => p.1.map (fun x => clamp01 (p.2.1 + gamma * (1 - p.2.2) * x))),
   (nextDistAll.map selectRow).map (fun row => computeTau quant_num row))

/-- `(u < 0).float()`. -/
def indicatorNeg (u : ℚ) : ℚ := if u < 0 then 1 else 0

/-- Lines 104-105: `huber_loss = 0.5 * u.abs().clamp(min=0., max=k).pow(2)
+ k * (u.abs() - u.abs().clamp(min=0., max=k) - 0.5 * k)`
(for `0 ≤ k`, `u.abs().clamp(min=0., max=k) = min |u| k`). -/
def huberCode (k u : ℚ) : ℚ :=
  1 / 2 * (min |u| k) ^ 2 + k * (|u| - min |u| k - 1 / 2 * k)

/-- One element of line 106: `(tau - (u < 0).float()).abs() * huber_loss`. -/
def quantileLossElem (k tau u : ℚ) : ℚ :=
  |tau - indicatorNeg u| * huberCode k u

/-- `quantile_loss.sum()` over paired `tau`/`u` entries. -/
def quantileLossSum (k : ℚ) (taus us : List ℚ) : ℚ :=
  ((taus.zip us).map (fun p => quantileLossElem k p.1 p.2)).sum

/-- Lines 106-107 as a function of the error tensor and the tau tensor
(flattened): `loss = quantile_loss.sum() / batch_size`. -/
def quantileLoss (k : ℚ) (taus us : List ℚ) (batch_size : ℕ) : ℚ :=
  quantileLossSum k taus us / (batch_size : ℚ)

/-- Lines 98-99: `dist.gather(1, action).squeeze(1)` — per sample, the
quantile row of the taken action. -/
def gatherAction (distFull : List (List (List ℚ))) (actions : List ℕ) :
    List (List ℚ) :=
  (distFull.zip actions).map (fun p => p.1.getD p.2 [])

/-- The numeric value computed by `train` (lines 97-107): the eval model's
output on the batch is `evalDistFull` (batch x action x quantile), the
target model's output on the next observations is `nextDistAll`; `u =
target_dist - dist`, `loss = quantile_loss.sum() / batch_size`. -/
def trainLoss (gamma k : ℚ) (quant_num : ℕ)
    (evalDistFull nextDistAll : List (List (List ℚ))) (actions : List ℕ)
    (rewards dones : List ℚ) (batch_size : ℕ) : ℚ :=
  (((getTargetDistribution gamma quant_num nextDistAll rewards dones).2.zip
      ((getTargetDistribution gamma quant_num nextDistAll rewards dones).1.zip
        (gatherAction evalDistFull actions))).map
    (fun p => quantileLossSum k p.1 ((p.2.1.zip p.2.2).map (fun q => q.1 - q.2)))).sum
    / (batch_size : ℚ)

/-- The ordinary (DQN) Huber loss with threshold `k`, written from the spec
sentence that the `quant_num = 1` case must reduce to: `0.5*u^2` for
`|u| ≤ k`, else `k*(|u| - 0.5*k)`.  Used only to compare the code's loss
against the spec's claimed reduction. -/
def huberStd (k u : ℚ) : ℚ :=
  if |u| ≤ k then 1 / 2 * u ^ 2 else k * (|u| - 1 / 2 * k)

/-- The ordinary DQN scalar target named by the spec's reduction claim:
`reward + gamma*(1-done)*max_a Q(next_obs,a)`, clamped like the code's
target. -/
def dqnTarget (gamma r d : ℚ) (qs : List ℚ) : ℚ :=
  clamp01 (r + gamma * (1 - d) * maxQ qs)

/-- Per-sample data of a `quant_num = 1` batch: reward, done flag, the target
model's per-action Q-values on the next observation, and the eval model's
prediction for the taken action. -/
structure Sample1 where
  r : ℚ
  d : ℚ
  qs : List ℚ
  p : ℚ
deriving DecidableEq

/-- Lines 179-180 of the episode loop, run once per completed episode:
`if epsilon > epsilon_min: epsilon = max(epsilon * epsilon_decay, epsilon_min)`
with `epsilon_decay = 0.995` and `epsilon_min = 0.01`. -/
def epsilonStep (e : ℚ) : ℚ :=
  if 1 / 100 < e then max (e * (199 / 200)) (1 / 100) else e

/-- Epsilon after `t` completed episodes, starting from `e0`. -/
def epsilonSeq (e0 : ℚ) : ℕ → ℚ
  | 0 => e0
  | t + 1 => epsilonStep (epsilonSeq e0 t)

/-- The persistent state of the model that `act` can touch: the trainable
parameters (abstract vector) and the `nn.Module` training-mode flag. -/
structure QRDQNState where
  params : List ℚ
  training : Bool
deriving DecidableEq

/-- `QR_DQN.act` (lines 52-63): `self.eval()` clears the training flag, then
either the greedy action (argmax of the per-action mean of the forward
output, when `random.random() > epsilon`) or a random action; `self.train()`
then sets the training flag, and the action is returned.  The forward output
on this observation is passed in as `forwardOut`; the RNG draws are the
oracle arguments `r` (for `random.random()`) and `randa` (for
`random.choice`). -/
def QRDQNState.act (net : QRDQNState) (forwardOut : List (List ℚ))
    (r epsilon : ℚ) (randa : ℕ) : ℕ × QRDQNState :=
  let inEval := { net with training := false }
  let a := if epsilon < r then argmaxFirst (forwardOut.map listMean) else randa
  (a, { inEval with training := true })

/-- Float division that records a zero denominator (NaN/infinity) as `none`. -/
def safeDiv (a b : ℚ) : Option ℚ := if b = 0 then none else some (a / b)

/-- The distance-improvement part of `CustomEnv6._on_road_reward`
(lines 193-202), as a function of the four Euclidean norms it uses:
`old_distance = norm(OldState - GoalState)`, `new_distance =
norm(next_position - GoalState)`, `curStartDist = norm(CurrentState -
StartState)`, `startGoalDist = norm(StartState - GoalState)`.  When the
distance improves, the code adds `1 + (0.5*curStartDist - 0.5*new_distance)
/ startGoalDist`; otherwise it subtracts 1.  `none` records a non-finite
(NaN/infinity) result of the division. -/
def progressReward (oldDist newDist curStartDist startGoalDist : ℚ) : Option ℚ :=
  if newDist < oldDist then
    match safeDiv (1 / 2 * curStartDist - 1 / 2 * newDist) startGoalDist with
    | none => none
    | some q => some (1 + q)
  else
    some (-1)

/-! ## Helper lemmas -/

theorem argmaxFirst_lt (l : List ℚ) (h : l ≠ []) : argmaxFirst l < l.length := by
  induction l with
  | nil => exact absurd rfl h
  | cons x xs ih =>
    rw [argmaxFirst]
    split
    · simp
    · rename_i hc
      cases xs with
      | nil => simp [argmaxFirst] at hc
      | cons y ys => simpa using ih (by simp)

theorem getD_argmaxFirst (x : ℚ) (xs : List ℚ) :
    (x :: xs).getD (argmaxFirst (x :: xs)) 0 = maxQ (x :: xs) := by
  induction xs generalizing x with
  | nil => simp [argmaxFirst, maxQ]
  | cons y ys ih =>
    have hlt : argmaxFirst (y :: ys) < (y :: ys).length :=
      argmaxFirst_lt (y :: ys) (by simp)
    have hd : (y :: ys).getD (argmaxFirst (y :: ys)) x
        = (y :: ys).getD (argmaxFirst (y :: ys)) 0 := by
      rw [List.getD_eq_getElem _ _ hlt, List.getD_eq_getElem _ _ hlt]
    rw [argmaxFirst]
    by_cases hc : (y :: ys).getD (argmaxFirst (y :: ys)) x ≤ x
    · rw [if_pos hc, List.getD_cons_zero]
      have hle : maxQ (y :: ys) ≤ x := by rw [← ih y, ← hd]; exact hc
      rw [maxQ]
      exact (max_eq_left hle).symm
    · rw [if_neg hc, List.getD_cons_succ, ih y]
      have hgt : x < maxQ (y :: ys) := by
        rw [← ih y, ← hd]; exact not_le.mp hc
      rw [maxQ]
      exact (max_eq_right hgt.le).symm

theorem listMean_single (q : ℚ) : listMean [q] = q := by
  simp [listMean]

theorem selectRow_singletons (qs : List ℚ) (h : qs ≠ []) :
    selectRow (qs.map fun q => [q]) = [maxQ qs] := by
  unfold selectRow
  have hm : (qs.map fun q => [q]).map listMean = qs := by
    rw [List.map_map]
    have h2 : ∀ a ∈ qs, ((listMean ∘ fun q => [q]) a) = id a :=
      fun a _ => listMean_single a
    rw [List.map_congr_left h2, List.map_id]
  rw [hm]
  obtain ⟨x, xs, rfl⟩ := List.exists_cons_of_ne_nil h
  have hlt : argmaxFirst (x :: xs) < (x :: xs).length :=
    argmaxFirst_lt (x :: xs) (by simp)
  rw [List.getD_eq_getElem _ _ (by simpa using hlt), List.getElem_map,
    ← getD_argmaxFirst x xs, List.getD_eq_getElem _ _ hlt]

theorem computeTau_single (m : ℚ) : computeTau 1 [m] = [1 / 2] := by
  have h : argsortAsc [m] = [0] := rfl
  rw [computeTau, h]
  norm_num [tau_hat]

theorem huberCode_eq_std (k u : ℚ) :
    huberCode k u = huberStd k u - k ^ 2 / 2 := by
  unfold huberCode huberStd
  rcases le_or_lt |u| k with h | h
  · rw [min_eq_left h, if_pos h, sq_abs]; ring
  · rw [min_eq_right h.le, if_neg (not_le.mpr h)]; ring

theorem huberCode_lb (k u : ℚ) (hk : 0 < k) : -(k ^ 2 / 2) ≤ huberCode k u := by
  unfold huberCode
  have h1 : min |u| k ≤ |u| := min_le_left _ _
  nlinarith [sq_nonneg (min |u| k), mul_nonneg hk.le (sub_nonneg.mpr h1)]

theorem quantileLossElem_lb (k tau u : ℚ) (hk : 0 < k) (h0 : 0 ≤ tau)
    (h1 : tau ≤ 1) : -(k ^ 2 / 2) ≤ quantileLossElem k tau u := by
  unfold quantileLossElem
  have hH := huberCode_lb k u hk
  have hw0 : 0 ≤ |tau - indicatorNeg u| := abs_nonneg _
  have hw1 : |tau - indicatorNeg u| ≤ 1 := by
    unfold indicatorNeg
    split
    · rw [abs_sub_comm, abs_of_nonneg (by linarith)]; linarith
    · rw [abs_of_nonneg (by linarith)]; linarith
  rcases le_or_lt 0 (huberCode k u) with hpos | hneg
  · have h2 : 0 ≤ |tau - indicatorNeg u| * huberCode k u := mul_nonneg hw0 hpos
    nlinarith [sq_nonneg k]
  · nlinarith [hw1, hH, hneg, hw0]

theorem quantileLossSum_lb (k : ℚ) (hk : 0 < k) (taus : List ℚ) :
    ∀ us : List ℚ, (∀ t ∈ taus, 0 ≤ t ∧ t ≤ 1) →
      -(k ^ 2 / 2) * ((taus.zip us).length : ℚ) ≤ quantileLossSum k taus us := by
  induction taus with
  | nil => intro us h; simp [quantileLossSum]
  | cons t ts ih =>
    intro us h
    cases us with
    | nil => simp [quantileLossSum]
    | cons u vs =>
      have h1 := quantileLossElem_lb k t u hk (h t (by simp)).1 (h t (by simp)).2
      have h2 := ih vs (fun a ha => h a (by simp [ha]))
      have hsplit : quantileLossSum k (t :: ts) (u :: vs)
          = quantileLossElem k t u + quantileLossSum k ts vs := by
        simp [quantileLossSum]
      rw [hsplit]
      have hlen : ((((t :: ts).zip (u :: vs)).length : ℕ) : ℚ)
          = ((ts.zip vs).length : ℚ) + 1 := by
        push_cast [List.zip_cons_cons, List.length_cons]
        ring
      rw [hlen]
      nlinarith [h1, h2]

theorem quantileLossSum_half (k u : ℚ) :
    quantileLossSum k [1 / 2] [u] = 1 / 2 * (huberStd k u - k ^ 2 / 2) := by
  have hw : |1 / 2 - indicatorNeg u| = (1 / 2 : ℚ) := by
    unfold indicatorNeg
    split
    · rw [show (1 / 2 - 1 : ℚ) = -(1 / 2) by norm_num, abs_neg,
        abs_of_nonneg (by norm_num)]
    · rw [sub_zero, abs_of_nonneg (by norm_num)]
  simp only [quantileLossSum, List.zip_cons_cons, List.zip_nil_right,
    List.map_cons, List.map_nil, List.sum_cons, List.sum_nil, add_zero,
    quantileLossElem, hw, huberCode_eq_std]

theorem insertIdx_perm (row : List ℚ) (i : ℕ) (l : List ℕ) :
    (insertIdx row i l).Perm (i :: l) := by
  induction l with
  | nil => exact List.Perm.refl _
  | cons j js ih =>
    rw [insertIdx]
    split
    · exact List.Perm.refl _
    · exact (List.Perm.cons j ih).trans (List.Perm.swap i j js)

theorem foldl_insertIdx_perm (row : List ℚ) (l : List ℕ) :
    ∀ acc : List ℕ,
      (l.foldl (fun a i => insertIdx row i a) acc).Perm (l ++ acc) := by
  induction l with
  | nil => intro acc; exact List.Perm.refl _
  | cons i is ih =>
    intro acc
    have h1 := ih (insertIdx row i acc)
    have h2 : (is ++ insertIdx row i acc).Perm (is ++ i :: acc) :=
      List.Perm.append_left is (insertIdx_perm row i acc)
    have h3 : (is ++ i :: acc).Perm (i :: (is ++ acc)) := List.perm_middle
    exact (h1.trans h2).trans h3

theorem argsortAsc_perm (row : List ℚ) :
    (argsortAsc row).Perm (List.range row.length) := by
  simpa [argsortAsc] using foldl_insertIdx_perm row (List.range row.length) []

theorem computeTau_perm (quant_num : ℕ) (row : List ℚ) :
    (computeTau quant_num row).Perm
      ((List.range row.length).map (fun i => tau_hat quant_num i)) :=
  (argsortAsc_perm row).map _

theorem store_memory (b : ReplayBuffer) (o : ℕ) (a : ℤ) (r : ℚ) (no : ℕ)
    (d : Bool) :
    (b.store o a r no d).memory
      = (b.memory ++ [mkTransition b.observation_dim (o, a, r, no, d)]).drop
          (b.memory.length + 1 - b.capacity) := by
  simp [ReplayBuffer.store, mkTransition]

theorem storeAll_memory (ts : List (ℕ × ℤ × ℚ × ℕ × Bool)) :
    ∀ b : ReplayBuffer, b.memory.length ≤ b.capacity →
      (storeAll b ts).memory
        = (b.memory ++ ts.map (mkTransition b.observation_dim)).drop
            (b.memory.length + ts.length - b.capacity) := by
  induction ts with
  | nil =>
    intro b hb
    simp [storeAll, Nat.sub_eq_zero_of_le hb]
  | cons x ts ih =>
    intro b hb
    have hcap : (b.store x.1 x.2.1 x.2.2.1 x.2.2.2.1 x.2.2.2.2).capacity
        = b.capacity := rfl
    have hdim : (b.store x.1 x.2.1 x.2.2.1 x.2.2.2.1 x.2.2.2.2).observation_dim
        = b.observation_dim := rfl
    have hmem : (b.store x.1 x.2.1 x.2.2.1 x.2.2.2.1 x.2.2.2.2).memory
        = (b.memory ++ [mkTransition b.observation_dim x]).drop
            (b.memory.length + 1 - b.capacity) :=
      store_memory b x.1 x.2.1 x.2.2.1 x.2.2.2.1 x.2.2.2.2
    have hlen1 : (b.store x.1 x.2.1 x.2.2.1 x.2.2.2.1 x.2.2.2.2).memory.length
        = b.memory.length + 1 - (b.memory.length + 1 - b.capacity) := by
      rw [hmem, List.length_drop]
      simp
    have hb1 : (b.store x.1 x.2.1 x.2.2.1 x.2.2.2.1 x.2.2.2.2).memory.length
        ≤ (b.store x.1 x.2.1 x.2.2.1 x.2.2.2.1 x.2.2.2.2).capacity := by
      rw [hlen1, hcap]; omega
    have hih := ih (b.store x.1 x.2.1 x.2.2.1 x.2.2.2.1 x.2.2.2.2) hb1
    have hstep : storeAll b (x :: ts)
        = storeAll (b.store x.1 x.2.1 x.2.2.1 x.2.2.2.1 x.2.2.2.2) ts := rfl
    rw [hstep, hih, hcap, hdim, hlen1, hmem]
    rw [← @List.drop_append_of_le_length Transition
        (b.memory ++ [mkTransition b.observation_dim x])
        (ts.map (mkTransition b.observation_dim))
        (b.memory.length + 1 - b.capacity)
        (by simp)]
    rw [List.drop_drop, List.append_assoc, List.singleton_append]
    simp only [List.map_cons, List.length_cons]
    congr 1
    omega

/-! ## Claims -/

/-- C1 counterexample: with `next_dist = [0.3, 0.1, 0.2]` and `quant_num = 3`
the code does NOT assign `tau_hat[0]` to original index 1, `tau_hat[1]` to
index 2 and `tau_hat[2]` to index 0: the gather `tau[j] = tau_hat[quant_idx[j]]`
produces `tau = [1/2, 5/6, 1/6]`, not the claimed `[5/6, 1/6, 1/2]`. -/
theorem c1_counterexample :
    ¬ ((computeTau 3 [3/10, 1/10, 2/10]).getD 1 0 = tau_hat 3 0 ∧
       (computeTau 3 [3/10, 1/10, 2/10]).getD 2 0 = tau_hat 3 1 ∧
       (computeTau 3 [3/10, 1/10, 2/10]).getD 0 0 = tau_hat 3 2) := by
  have h1 : (computeTau 3 [3/10, 1/10, 2/10]).getD 1 0 = 5/6 := by
    norm_num [computeTau, argsortAsc, insertIdx, tau_hat, List.range_succ]
  have h2 : tau_hat 3 0 = 1/6 := by norm_num [tau_hat]
  rintro ⟨ha, -, -⟩
  rw [h1, h2] at ha
  norm_num at ha

/-- C1 amended: `tau` is `tau_hat` gathered through the argsort permutation
(`tau[j] = tau_hat[quant_idx[j]]`, not the inverse scatter the claim
describes): for the example batch, original index 0 receives `tau_hat[1]`,
index 1 receives `tau_hat[2]` and index 2 receives `tau_hat[0]`; in general
the `tau` row is a permutation of the nominal midpoints
`tau_hat[0..quant_num)` across the row's slot positions. -/
theorem c1_amended :
    (computeTau 3 [3/10, 1/10, 2/10] = [tau_hat 3 1, tau_hat 3 2, tau_hat 3 0]) ∧
    ∀ (quant_num : ℕ) (row : List ℚ),
      (computeTau quant_num row).Perm
        ((List.range row.length).map (fun i => tau_hat quant_num i)) := by
  constructor
  · norm_num [computeTau, argsortAsc, insertIdx, tau_hat, List.range_succ]
  · exact fun quant_num row => computeTau_perm quant_num row

/-- C2 counterexample: the trainer's quantile loss is NOT always
non-negative: at `u = 0`, `tau = 0.5`, `k = 1`, `batch_size = 1` the code's
huber term is `-0.5` and the loss is `-1/4 < 0`. -/
theorem c2_counterexample : ¬ (0 ≤ quantileLoss 1 [1/2] [0] 1) := by
  have heval : quantileLoss 1 [1/2] [0] 1 = -(1/4) := by
    norm_num [quantileLoss, quantileLossSum, quantileLossElem, huberCode,
      indicatorNeg, abs_of_nonneg]
  intro h
  rw [heval] at h
  norm_num at h

/-- C2 amended: because the code's huber term is the standard Huber value
shifted down by `k^2/2`, the loss is bounded below by
`-(k^2/2) * (number of tau/u pairs) / batch_size` for every finite `u`,
every `tau` with all entries in `[0, 1]` and every threshold `k > 0` (but it
is not bounded below by 0). -/
theorem c2_amended (k : ℚ) (taus us : List ℚ) (batch_size : ℕ) (hk : 0 < k)
    (hb : 0 < batch_size) (htau : ∀ t ∈ taus, 0 ≤ t ∧ t ≤ 1) :
    -(k ^ 2 / 2) * ((taus.zip us).length : ℚ) / (batch_size : ℚ)
      ≤ quantileLoss k taus us batch_size := by
  unfold quantileLoss
  have hb2 : (0 : ℚ) < (batch_size : ℚ) := by exact_mod_cast hb
  exact (div_le_div_iff_of_pos_right hb2).mpr (quantileLossSum_lb k hk taus us htau)

/-- C2 witness. -/
theorem c2_witness :
    (0 < (1 : ℚ)) ∧ (0 < 1) ∧
    -((1 : ℚ) ^ 2 / 2) * ((([1/2] : List ℚ).zip ([0] : List ℚ)).length : ℚ)
        / ((1 : ℕ) : ℚ)
      ≤ quantileLoss 1 [1/2] [0] 1 :=
  ⟨by norm_num, by norm_num,
   c2_amended 1 [1/2] [0] 1 (by norm_num) (by norm_num)
     (by intro t ht; rw [List.mem_singleton] at ht; rw [ht]; norm_num)⟩

/-- C4: every element of the `target_dist` returned by
`get_target_distribution` lies in `[0, 1]`, for every reward, gamma, done
flag and target-model output (the Bellman value is clamped elementwise). -/
theorem c4_target_clamped (gamma : ℚ) (quant_num : ℕ)
    (nextDistAll : List (List (List ℚ))) (rewards dones : List ℚ)
    (row : List ℚ)
    (hrow : row ∈ (getTargetDistribution gamma quant_num nextDistAll rewards dones).1)
    (x : ℚ) (hx : x ∈ row) : 0 ≤ x ∧ x ≤ 1 := by
  simp only [getTargetDistribution, List.mem_map] at hrow
  obtain ⟨p, hp, hrow⟩ := hrow
  rw [← hrow] at hx
  simp only [List.mem_map] at hx
  obtain ⟨y, hy, hx⟩ := hx
  rw [← hx]
  unfold clamp01
  exact ⟨le_min (le_max_right _ _) zero_le_one, min_le_right _ _⟩

/-- C4 witness. -/
theorem c4_witness : 0 ≤ (1 : ℚ) ∧ (1 : ℚ) ≤ 1 :=
  c4_target_clamped 2 1 [[[5]]] [3] [0] [1]
    (by norm_num [getTargetDistribution, selectRow, listMean, argmaxFirst, clamp01])
    1 (by norm_num)

/-- C9: the claim says the division by the start-goal distance norm in
`CustomEnv6._on_road_reward` is guarded against a zero denominator; the code
has no guard: with `start = goal` (norm 0), old distance 2 and new distance
1 (a progress step, reachable because the constructor allows `start = goal`),
the division `0/0` is executed and the reward is non-finite (NaN). -/
theorem c9_unguarded_division : progressReward 2 1 1 0 = none := by
  norm_num [progressReward, safeDiv]

/-- C5 counterexample: `sample(0)` on a non-empty buffer satisfies
`n ≤ length` but does NOT return a (0-transition) result: `random.sample`
yields the empty batch and the five-way unpacking
`observation, action, reward, next_observation, done = zip(*batch)` raises
`ValueError`, so the claim's success guarantee fails at `n = 0`. -/
theorem c5_counterexample :
    ((ReplayBuffer.mk 2 [default] 1).sample 0 []).1
        = Except.error "not enough values to unpack (expected 5, got 0)" ∧
    ¬ (((ReplayBuffer.mk 2 [default] 1).sample 0 []).1 = Except.ok []) := by
  constructor
  · rfl
  · intro h
    simp [ReplayBuffer.sample] at h

/-- C5 amended: for `1 ≤ n ≤ length`, `sample` returns exactly the `n`
stored transitions at the RNG's `n` distinct in-range positions
(`random.sample`'s contract, taken as hypotheses on the oracle `idxs`), as
five parallel sequences preserving the per-transition pairing; for
`n > length` it fails with `random.sample`'s out-of-range `ValueError`; and
for `n = 0` it fails with the tuple-unpacking `ValueError` on the empty
batch instead of returning an empty result. -/
theorem c5_sampling_bounds (b : ReplayBuffer) (n : ℕ) (idxs : List ℕ) :
    (idxs.Nodup → idxs.length = n → (∀ i ∈ idxs, i < b.memory.length) →
      n ≤ b.memory.length → 1 ≤ n →
      ∃ batch : List Transition,
        (b.sample n idxs).1 = Except.ok batch ∧
        batch.length = n ∧
        (∃ js : List ℕ, js.Nodup ∧ js.length = n ∧
          (∀ i ∈ js, i < b.memory.length) ∧
          batch = js.map (fun i => b.memory.getD i default)) ∧
        ∀ j : ℕ,
          ((unzipBatch batch).1)[j]? = (batch[j]?).map Transition.obs ∧
          ((unzipBatch batch).2.1)[j]? = (batch[j]?).map Transition.act ∧
          ((unzipBatch batch).2.2.1)[j]? = (batch[j]?).map Transition.rew ∧
          ((unzipBatch batch).2.2.2.1)[j]? = (batch[j]?).map Transition.nextObs ∧
          ((unzipBatch batch).2.2.2.2)[j]? = (batch[j]?).map Transition.done) ∧
    (b.memory.length < n →
      (b.sample n idxs).1
        = Except.error "Sample larger than population or is negative") ∧
    (n ≤ b.memory.length → idxs.length = n → n = 0 →
      (b.sample n idxs).1
        = Except.error "not enough values to unpack (expected 5, got 0)") := by
  refine ⟨?_, ?_, ?_⟩
  · intro hnd hlen hvalid hle hpos
    have hne0 : idxs ≠ [] := by
      intro h0
      rw [h0] at hlen
      simp at hlen
      omega
    have hne : ¬ ((idxs.map (fun i => b.memory.getD i default)).isEmpty = true) := by
      simp [List.isEmpty_iff, hne0]
    refine ⟨idxs.map (fun i => b.memory.getD i default), ?_, ?_,
      ⟨idxs, hnd, hlen, hvalid, rfl⟩, ?_⟩
    · unfold ReplayBuffer.sample
      rw [if_pos hle, if_neg hne]
    · simp [hlen]
    · intro j
      refine ⟨?_, ?_, ?_, ?_, ?_⟩ <;> simp [unzipBatch]
  · intro hgt
    unfold ReplayBuffer.sample
    rw [if_neg (not_le.mpr hgt)]
  · intro hle hlen h0
    have hidx : idxs = [] := by
      rw [h0] at hlen
      exact List.length_eq_zero.mp hlen
    subst hidx
    subst h0
    unfold ReplayBuffer.sample
    rw [if_pos hle]
    rfl

/-- C5 witness. -/
theorem c5_witness :
    (∃ batch : List Transition,
        ((ReplayBuffer.mk 3 [default, default] 2).sample 1 [1]).1
            = Except.ok batch ∧
        batch.length = 1 ∧
        (∃ js : List ℕ, js.Nodup ∧ js.length = 1 ∧
          (∀ i ∈ js, i < (ReplayBuffer.mk 3 [default, default] 2).memory.length) ∧
          batch = js.map (fun i =>
            (ReplayBuffer.mk 3 [default, default] 2).memory.getD i default)) ∧
        ∀ j : ℕ,
          ((unzipBatch batch).1)[j]? = (batch[j]?).map Transition.obs ∧
          ((unzipBatch batch).2.1)[j]? = (batch[j]?).map Transition.act ∧
          ((unzipBatch batch).2.2.1)[j]? = (batch[j]?).map Transition.rew ∧
          ((unzipBatch batch).2.2.2.1)[j]? = (batch[j]?).map Transition.nextObs ∧
          ((unzipBatch batch).2.2.2.2)[j]? = (batch[j]?).map Transition.done) ∧
    ((ReplayBuffer.mk 3 [default, default] 2).sample 3 [1]).1
        = Except.error "Sample larger than population or is negative" ∧
    ((ReplayBuffer.mk 3 [default, default] 2).sample 0 []).1
        = Except.error "not enough values to unpack (expected 5, got 0)" :=
  ⟨(c5_sampling_bounds (ReplayBuffer.mk 3 [default, default] 2) 1 [1]).1
      (by decide) (by decide) (by decide) (by decide) (by decide),
   (c5_sampling_bounds (ReplayBuffer.mk 3 [default, default] 2) 3 [1]).2.1
      (by decide),
   (c5_sampling_bounds (ReplayBuffer.mk 3 [default, default] 2) 0 []).2.2
      (by decide) (by decide) rfl⟩

/-- C6: starting from an empty buffer of capacity `c`, after storing
`c + k` transitions the memory holds exactly the most recent `c` of them in
their original relative order (the earliest `k` are evicted) and has length
`c`; and after any sequence of stores the length never exceeds `c`. -/
theorem c6_ring_eviction (c k dim : ℕ) (ts us : List (ℕ × ℤ × ℚ × ℕ × Bool))
    (hlen : ts.length = c + k) :
    (storeAll (ReplayBuffer.init c dim) ts).memory
        = (ts.map (mkTransition dim)).drop k ∧
    (storeAll (ReplayBuffer.init c dim) ts).memory.length = c ∧
    (storeAll (ReplayBuffer.init c dim) us).memory.length ≤ c := by
  have hmem0 : (ReplayBuffer.init c dim).memory = [] := rfl
  have hcap0 : (ReplayBuffer.init c dim).capacity = c := rfl
  have hdim0 : (ReplayBuffer.init c dim).observation_dim = dim := rfl
  have e1 : (storeAll (ReplayBuffer.init c dim) ts).memory
      = (ts.map (mkTransition dim)).drop (ts.length - c) := by
    have h1 := storeAll_memory ts (ReplayBuffer.init c dim) (Nat.zero_le c)
    rw [hmem0, hcap0, hdim0] at h1
    simpa using h1
  have e2 : (storeAll (ReplayBuffer.init c dim) us).memory
      = (us.map (mkTransition dim)).drop (us.length - c) := by
    have h2 := storeAll_memory us (ReplayBuffer.init c dim) (Nat.zero_le c)
    rw [hmem0, hcap0, hdim0] at h2
    simpa using h2
  refine ⟨?_, ?_, ?_⟩
  · rw [e1]
    congr 1
    omega
  · rw [e1, List.length_drop, List.length_map, hlen]
    omega
  · rw [e2, List.length_drop, List.length_map]
    omega

/-- C6 witness. -/
theorem c6_witness :
    (storeAll (ReplayBuffer.init 2 1)
        [(0, 1, 1, 0, false), (1, 2, 2, 1, false), (0, 3, 3, 0, true)]).memory
      = (([(0, 1, 1, 0, false), (1, 2, 2, 1, false), (0, 3, 3, 0, true)]
            : List (ℕ × ℤ × ℚ × ℕ × Bool)).map (mkTransition 1)).drop 1 ∧
    (storeAll (ReplayBuffer.init 2 1)
        [(0, 1, 1, 0, false), (1, 2, 2, 1, false), (0, 3, 3, 0, true)]).memory.length
      = 2 ∧
    (storeAll (ReplayBuffer.init 2 1)
        [(0, 1, 1, 0, false), (1, 2, 2, 1, false), (0, 3, 3, 0, true)]).memory.length
      ≤ 2 :=
  c6_ring_eviction 2 1 1
    [(0, 1, 1, 0, false), (1, 2, 2, 1, false), (0, 3, 3, 0, true)]
    [(0, 1, 1, 0, false), (1, 2, 2, 1, false), (0, 3, 3, 0, true)] rfl

/-- C7 counterexample: for initial epsilon below `epsilon_min` (code
constants: `epsilon_min = 0.01`, `decay = 0.995`), epsilon stays below
`epsilon_min` forever, because the update on lines 179-180 is guarded by
`epsilon > epsilon_min`: starting at `1/200`, after one completed episode
epsilon is still `1/200 < 1/100`, so the claim's bound fails for that
initial epsilon. -/
theorem c7_counterexample : ¬ (1 / 100 ≤ epsilonSeq (1 / 200) 1) := by
  have heval : epsilonSeq (1 / 200) 1 = 1 / 200 := by
    norm_num [epsilonSeq, epsilonStep]
  intro h
  rw [heval] at h
  norm_num at h

/-- C7 amended: epsilon is updated at most once per completed episode by
`if epsilon > epsilon_min: epsilon = max(epsilon * decay, epsilon_min)`; the
per-episode sequence is non-increasing for EVERY initial epsilon, and it
never falls below `epsilon_min = 1/100` provided the initial epsilon is at
least `epsilon_min` (when the initial epsilon is below `epsilon_min` the
guard skips the update and epsilon stays at its initial value). -/
theorem c7_amended (e0 : ℚ) (t : ℕ) :
    epsilonSeq e0 (t + 1) ≤ epsilonSeq e0 t ∧
    (1 / 100 ≤ e0 → 1 / 100 ≤ epsilonSeq e0 t) := by
  constructor
  · show epsilonStep (epsilonSeq e0 t) ≤ epsilonSeq e0 t
    unfold epsilonStep
    split
    · rename_i hgt
      apply max_le
      · linarith
      · linarith
    · exact le_refl _
  · intro h0
    induction t with
    | zero => exact h0
    | succ t ih =>
      show 1 / 100 ≤ epsilonStep (epsilonSeq e0 t)
      unfold epsilonStep
      split
      · exact le_max_right _ _
      · exact ih

/-- C7 witness. -/
theorem c7_witness :
    epsilonSeq (19 / 20) (0 + 1) ≤ epsilonSeq (19 / 20) 0 ∧
    1 / 100 ≤ epsilonSeq (19 / 20) 0 :=
  ⟨(c7_amended (19 / 20) 0).1, (c7_amended (19 / 20) 0).2 (by norm_num)⟩

/-- C8 counterexample: `act` does NOT restore the training-mode flag to its
value at call entry whatever it was: `self.train()` is called
unconditionally at exit, so a model that was in evaluation mode
(`training = false`) at entry comes back in training mode. -/
theorem c8_counterexample :
    ¬ (((QRDQNState.mk [1] false).act [[0]] 1 0 0).2.training = false) := by
  have h : ((QRDQNState.mk [1] false).act [[0]] 1 0 0).2.training = true := rfl
  rw [h]
  simp

/-- C8 amended: for every observation, epsilon and RNG draw, `act` leaves
the trainable parameters unchanged, but it always returns with the model in
training mode (the entry mode is therefore restored only when that mode was
training mode). -/
theorem c8_act_state (net : QRDQNState) (forwardOut : List (List ℚ))
    (r epsilon : ℚ) (randa : ℕ) :
    (net.act forwardOut r epsilon randa).2.params = net.params ∧
    (net.act forwardOut r epsilon randa).2.training = true :=
  ⟨rfl, rfl⟩

/-- C10: for every replay memory and every `n ≤ length`, `sample` leaves the
buffer it was called on unchanged — the stored transitions, their count and
their insertion order are identical before and after the call, whether the
call returns a batch or raises on the empty batch (sampling is read-only
and never writes `self.memory`). -/
theorem c10_sample_readonly (b : ReplayBuffer) (n : ℕ) (idxs : List ℕ)
    (h : n ≤ b.memory.length) :
    (b.sample n idxs).2 = b := by
  unfold ReplayBuffer.sample
  rw [if_pos h]
  split <;> rfl

/-- C10 witness (one call that returns a batch, one that raises on the
empty batch: the buffer comes back unchanged in both). -/
theorem c10_witness :
    ((ReplayBuffer.mk 2 [default] 1).sample 1 [0]).2
        = ReplayBuffer.mk 2 [default] 1 ∧
    ((ReplayBuffer.mk 2 [default] 1).sample 0 []).2
        = ReplayBuffer.mk 2 [default] 1 :=
  ⟨c10_sample_readonly (ReplayBuffer.mk 2 [default] 1) 1 [0] (by decide),
   c10_sample_readonly (ReplayBuffer.mk 2 [default] 1) 0 [] (by decide)⟩

/-- C3 counterexample: with `quant_num = 1` the training loss does NOT equal
the plain Huber loss of the target-minus-prediction error: on the batch with
one sample (target-model Q-value 0 for the single action, `reward = 1`,
`done = 0`, `gamma = 1/2`, prediction 1, `k = 1`) the DQN target is 1, the
error is 0, the plain Huber loss is 0, but the code's loss is `-1/4`. -/
theorem c3_counterexample :
    trainLoss (1/2) 1 1 [[[1]]] [[[0]]] [0] [1] [0] 1
      ≠ huberStd 1 (dqnTarget (1/2) 1 0 [0] - 1) / 1 := by
  have h1 : trainLoss (1/2) 1 1 [[[1]]] [[[0]]] [0] [1] [0] 1 = -(1/4) := by
    norm_num [trainLoss, getTargetDistribution, gatherAction, selectRow,
      listMean, argmaxFirst, clamp01, computeTau, argsortAsc, insertIdx,
      tau_hat, quantileLossSum, quantileLossElem, huberCode, indicatorNeg,
      abs_of_nonneg, List.range_succ]
  have h2 : huberStd 1 (dqnTarget (1/2) 1 0 [0] - 1) / 1 = 0 := by
    norm_num [huberStd, dqnTarget, clamp01, maxQ, abs_of_nonneg]
  rw [h1, h2]
  norm_num

/-- C3 amended: with `quant_num = 1`, for every fixed batch (given per sample
as reward `r`, done flag `d`, the target model's per-action Q-values `qs` on
the next observation, and the prediction `p` for the taken action) the
target reduces to the ordinary DQN scalar target
`clamp01 (r + gamma*(1-d)*max qs)` and `tau` is `0.5` everywhere; the loss,
however, equals the sum over the batch of HALF the standard Huber loss of
the error shifted down by `k^2/2`, divided by `batch_size` — not the plain
Huber loss. -/
theorem c3_quant1_reduction (gamma k : ℚ) (batch_size : ℕ)
    (samples : List Sample1) (hq : ∀ s ∈ samples, s.qs ≠ []) :
    (getTargetDistribution gamma 1
        (samples.map (fun s => s.qs.map (fun q => [q])))
        (samples.map Sample1.r) (samples.map Sample1.d)).1
      = samples.map (fun s => [dqnTarget gamma s.r s.d s.qs]) ∧
    (getTargetDistribution gamma 1
        (samples.map (fun s => s.qs.map (fun q => [q])))
        (samples.map Sample1.r) (samples.map Sample1.d)).2
      = samples.map (fun _ => [(1 : ℚ) / 2]) ∧
    trainLoss gamma k 1 (samples.map (fun s => [[s.p]]))
        (samples.map (fun s => s.qs.map (fun q => [q])))
        (samples.map (fun _ => 0)) (samples.map Sample1.r)
        (samples.map Sample1.d) batch_size
      = (samples.map (fun s =>
          1 / 2 * (huberStd k (dqnTarget gamma s.r s.d s.qs - s.p)
            - k ^ 2 / 2))).sum / (batch_size : ℚ) := by
  have hsel : (samples.map (fun s => s.qs.map (fun q => [q]))).map selectRow
      = samples.map (fun s => [maxQ s.qs]) := by
    rw [List.map_map]
    exact List.map_congr_left (fun s hs => selectRow_singletons s.qs (hq s hs))
  have h1 : (getTargetDistribution gamma 1
        (samples.map (fun s => s.qs.map (fun q => [q])))
        (samples.map Sample1.r) (samples.map Sample1.d)).1
      = samples.map (fun s => [dqnTarget gamma s.r s.d s.qs]) := by
    show (((samples.map (fun s => s.qs.map (fun q => [q]))).map selectRow).zip
        ((samples.map Sample1.r).zip (samples.map Sample1.d))).map _
      = _
    rw [hsel, List.zip_map', List.zip_map', List.map_map]
    apply List.map_congr_left
    intro s hs
    simp [dqnTarget]
  have h2 : (getTargetDistribution gamma 1
        (samples.map (fun s => s.qs.map (fun q => [q])))
        (samples.map Sample1.r) (samples.map Sample1.d)).2
      = samples.map (fun _ => [(1 : ℚ) / 2]) := by
    show ((samples.map (fun s => s.qs.map (fun q => [q]))).map selectRow).map _
      = _
    rw [hsel, List.map_map]
    apply List.map_congr_left
    intro s hs
    exact computeTau_single (maxQ s.qs)
  have hga : gatherAction (samples.map (fun s => [[s.p]]))
        (samples.map (fun _ => 0))
      = samples.map (fun s => [s.p]) := by
    unfold gatherAction
    rw [List.zip_map', List.map_map]
    apply List.map_congr_left
    intro s hs
    rfl
  refine ⟨h1, h2, ?_⟩
  unfold trainLoss
  rw [h2, h1, hga, List.zip_map', List.zip_map', List.map_map]
  congr 1
  congr 1
  apply List.map_congr_left
  intro s hs
  exact quantileLossSum_half k (dqnTarget gamma s.r s.d s.qs - s.p)

/-- C3 witness. -/
theorem c3_witness :
    (∀ s ∈ [Sample1.mk 1 0 [0, 1/2] (3/4)], s.qs ≠ []) ∧
    ((getTargetDistribution (1/2) 1
        ([Sample1.mk 1 0 [0, 1/2] (3/4)].map (fun s => s.qs.map (fun q => [q])))
        ([Sample1.mk 1 0 [0, 1/2] (3/4)].map Sample1.r)
        ([Sample1.mk 1 0 [0, 1/2] (3/4)].map Sample1.d)).1
      = [Sample1.mk 1 0 [0, 1/2] (3/4)].map
          (fun s => [dqnTarget (1/2) s.r s.d s.qs]) ∧
    (getTargetDistribution (1/2) 1
        ([Sample1.mk 1 0 [0, 1/2] (3/4)].map (fun s => s.qs.map (fun q => [q])))
        ([Sample1.mk 1 0 [0, 1/2] (3/4)].map Sample1.r)
        ([Sample1.mk 1 0 [0, 1/2] (3/4)].map Sample1.d)).2
      = [Sample1.mk 1 0 [0, 1/2] (3/4)].map (fun _ => [(1 : ℚ) / 2]) ∧
    trainLoss (1/2) 1 1 ([Sample1.mk 1 0 [0, 1/2] (3/4)].map (fun s => [[s.p]]))
        ([Sample1.mk 1 0 [0, 1/2] (3/4)].map (fun s => s.qs.map (fun q => [q])))
        ([Sample1.mk 1 0 [0, 1/2] (3/4)].map (fun _ => 0))
        ([Sample1.mk 1 0 [0, 1/2] (3/4)].map Sample1.r)
        ([Sample1.mk 1 0 [0, 1/2] (3/4)].map Sample1.d) 1
      = ([Sample1.mk 1 0 [0, 1/2] (3/4)].map (fun s =>
          1 / 2 * (huberStd 1 (dqnTarget (1/2) s.r s.d s.qs - s.p)
            - 1 ^ 2 / 2))).sum / ((1 : ℕ) : ℚ)) :=
  ⟨by intro s hs; rw [List.mem_singleton] at hs; rw [hs]; simp,
   c3_quant1_reduction (1/2) 1 1 [Sample1.mk 1 0 [0, 1/2] (3/4)]
     (by intro s hs; rw [List.mem_singleton] at hs; rw [hs]; simp)⟩
